import Mathlib

/-!
Shallow embedding of the workflow orchestration engine in `main_hybrid.py`
(classes `InputValidator`, `HybridAIClient`, `MemoryManager`, `TeamManager`,
function `main`), together with theorems settling the frozen claims about it.

Python strings are modelled as Lean `String`; all string primitives used by
the source (`str.lower`, `str.upper`, `str.split`, `str.replace`,
`str.strip`, the `in` substring test) are re-implemented on the underlying
character list so that every definition evaluates inside the kernel.
-/

/-- Model of Python `str.lower`: character-wise lowering. -/
def pyLower (s : String) : String := String.mk (s.data.map Char.toLower)

/-- Model of Python `str.upper`: character-wise uppering. -/
def pyUpper (s : String) : String := String.mk (s.data.map Char.toUpper)

/-- Helper for the Python substring test: does `pat` occur inside the list? -/
def hasSublistAux : List Char → List Char → Bool
  | _, [] => true
  | [], _ :: _ => false
  | c :: cs, p :: ps => (List.isPrefixOf (p :: ps) (c :: cs)) || hasSublistAux cs (p :: ps)

/-- Model of the Python expression `pat in s` on strings. -/
def strContains (s pat : String) : Bool := hasSublistAux s.data pat.data

/-- Accumulator-based splitter behind `pySplitWs`. -/
def splitWsAux : List Char → List Char → List String
  | [], acc => if acc.isEmpty then [] else [String.mk acc.reverse]
  | c :: cs, acc =>
    if c.isWhitespace then
      (if acc.isEmpty then splitWsAux cs [] else String.mk acc.reverse :: splitWsAux cs [])
    else splitWsAux cs (c :: acc)

/-- Model of Python `str.split()` with no arguments: split on whitespace runs,
dropping empty pieces. -/
def pySplitWs (s : String) : List String := splitWsAux s.data []

/-- Model of Python `str.replace pat rep` on character lists: replace all
non-overlapping occurrences, scanning left to right, without rescanning the
replacement text. The `fuel` argument only forces structural recursion; each
step consumes at least one character, so any `fuel` at least the length of
the text gives the untruncated scan. -/
def replaceAllAux (pat rep : List Char) : Nat → List Char → List Char
  | 0, l => l
  | _ + 1, [] => []
  | fuel + 1, c :: cs =>
    if pat ≠ [] ∧ List.isPrefixOf pat (c :: cs) then
      rep ++ replaceAllAux pat rep fuel (List.drop pat.length (c :: cs))
    else
      c :: replaceAllAux pat rep fuel cs

/-- Model of Python `str.replace` on strings. -/
def pyReplace (s pat rep : String) : String :=
  String.mk (replaceAllAux pat.data rep.data s.data.length s.data)

/-- Model of Python `str.strip()`: drop leading and trailing whitespace. -/
def pyStrip (s : String) : String :=
  String.mk
    (((s.data.dropWhile Char.isWhitespace).reverse.dropWhile Char.isWhitespace).reverse)

/-- Equality test on `Except`, needed so that concrete runs can be settled
with `decide`. -/
instance {ε α : Type} [DecidableEq ε] [DecidableEq α] : DecidableEq (Except ε α) := fun a b =>
  match a, b with
  | .ok x, .ok y =>
    if h : x = y then isTrue (by rw [h]) else isFalse (fun hc => by cases hc; exact h rfl)
  | .ok _, .error _ => isFalse (fun hc => by cases hc)
  | .error _, .ok _ => isFalse (fun hc => by cases hc)
  | .error x, .error y =>
    if h : x = y then isTrue (by rw [h]) else isFalse (fun hc => by cases hc; exact h rfl)

/-! ### `InputValidator` (main_hybrid.py lines 84-118) -/

/-- Outcome of `InputValidator.validate_instruction`: either the Python
`ValueError` for an over-long instruction, or the `SecurityError` raised on a
deny-listed phrase; the security error carries the matched phrase (the Python
message embeds it as `found pattern`). -/
inductive ValidationError : Type
  | lengthViolation : ValidationError
  | securityViolation (pattern : String) : ValidationError
deriving DecidableEq

/-- `InputValidator.MAX_INSTRUCTION_LENGTH`. -/
def MAX_INSTRUCTION_LENGTH : Nat := 2000

/-- `InputValidator.PROMPT_INJECTION_PATTERNS`, in source order. -/
def PROMPT_INJECTION_PATTERNS : List String :=
  ["ignore previous", "ignore all", "system:", "disregard",
   "act as", "you are a", "roleplay as"]

/-- `InputValidator.validate_instruction`: length check first, then the first
matching deny-listed phrase (scanned in list order against the lowered text),
otherwise the text is returned unchanged. -/
def validate_instruction (text : String) : Except ValidationError String :=
  if text.length > MAX_INSTRUCTION_LENGTH then
    .error .lengthViolation
  else
    match PROMPT_INJECTION_PATTERNS.find? (fun p => strContains (pyLower text) p) with
    | some p => .error (.securityViolation p)
    | none => .ok text

/-! ### `HybridAIClient` (main_hybrid.py lines 51-186) -/

/-- `MODEL_ARCHITECT`. -/
def MODEL_ARCHITECT : String := "gpt-4o"

/-- `MODEL_FALLBACK`. -/
def MODEL_FALLBACK : String := "gpt-4o-mini"

/-- The two mutable globals `MODEL_CODER` and `MODEL_CLERK` routed by role. -/
structure Roster where
  coder : String
  clerk : String
deriving DecidableEq

/-- Roster at module load (Ollama reachable, no fallback switch). -/
def defaultRoster : Roster :=
  { coder := "ollama/qwen2.5-coder:14b", clerk := "ollama/llama3.2" }

/-- `HybridAIClient._switch_to_fallback`: both locals are permanently replaced
by the fallback model. -/
def switch_to_fallback (_r : Roster) : Roster :=
  { coder := MODEL_FALLBACK, clerk := MODEL_FALLBACK }

/-- The routing logic at the top of `HybridAIClient.generate`; the second
component is the sampling temperature in tenths (0.1, 0.2, 0.0). -/
def routeModel (r : Roster) (role : String) : String × Nat :=
  if role ∈ ["Architect", "Planner", "Auditor"] then (MODEL_ARCHITECT, 1)
  else if role ∈ ["Python Dev", "QA Engineer", "Debugger"] then (r.coder, 2)
  else (r.clerk, 0)

/-- Outcome of one call to the external completion service: the completion
text, or the message of the raised exception. -/
inductive CallResult : Type
  | ok (text : String) : CallResult
  | exn (msg : String) : CallResult
deriving DecidableEq

/-- The `AgentError` exception: agent role, phase, and detail key-value pairs. -/
structure AgentErr where
  agent : String
  phase : String
  details : List (String × String)
deriving DecidableEq

/-- `HybridAIClient.generate`, with the outcome of the primary-tier call and of
the (potential) fallback-tier call supplied as oracles. The retry is attempted
only when the routed model differs from `MODEL_FALLBACK`. -/
def generate (r : Roster) (role : String) (primary fallback : CallResult) :
    Except AgentErr String :=
  match primary with
  | .ok t => .ok t
  | .exn e =>
    if (routeModel r role).1 ≠ MODEL_FALLBACK then
      match fallback with
      | .ok t => .ok t
      | .exn e2 =>
        .error { agent := role, phase := "generation",
                 details := [("original_error", e), ("fallback_error", e2)] }
    else
      .error { agent := role, phase := "generation", details := [("error", e)] }

/-! ### `MemoryManager` (main_hybrid.py lines 250-286) -/

/-- One record of `agent_memory.json`. -/
structure Experience where
  timestamp : String
  task : String
  success : Bool
  solution : String
deriving DecidableEq

/-- The keyword set `set(text.lower().split())` of Python, as a deduplicated
list (first occurrence kept, so membership matches set membership). -/
def keywordSet (s : String) : List String := (pySplitWs (pyLower s)).dedup

/-- `len(task_keywords.intersection(mem_keywords))`: the number of distinct
keywords of `a` that also occur among the keywords of `b`. -/
def overlapScore (a b : String) : Nat :=
  ((keywordSet a).filter (fun w => w ∈ keywordSet b)).length

/-- The `scored_memories` list built by `find_similar_experiences` before
sorting: insertion order, zero-overlap records discarded. -/
def scoredMemories (memories : List Experience) (task : String) : List (Nat × Experience) :=
  (memories.map (fun m => (overlapScore task m.task, m))).filter (fun p => 0 < p.1)

/-- The key order used by `scored_memories.sort(reverse=True)`: higher score
first. Python `list.sort` is stable, and with `reverse=True` elements with
equal keys still keep their original relative order; insertion sort with this
non-strict relation has exactly that behaviour. -/
def scoreGE {α : Type} (a b : Nat × α) : Prop := b.1 ≤ a.1

instance {α : Type} : DecidableRel (@scoreGE α) := fun a b => Nat.decLe b.1 a.1

instance {α : Type} : IsTotal (Nat × α) scoreGE := ⟨fun a b => Nat.le_total b.1 a.1⟩

instance {α : Type} : IsTrans (Nat × α) scoreGE := ⟨fun _ _ _ h1 h2 => Nat.le_trans h2 h1⟩

/-- `MemoryManager.find_similar_experiences` on a plain record list: score,
discard zeros, stable-sort descending, take the first `top_k`, project the
records. -/
def find_similar_experiences (memories : List Experience) (task : String) (top_k : Nat) :
    List Experience :=
  (((scoredMemories memories task).insertionSort scoreGE).take top_k).map Prod.snd

/-- The state owned by a `MemoryManager`: the in-memory list and the contents
of the on-disk log (`none` while the file does not exist). -/
structure MemoryState where
  memories : List Experience
  disk : Option (List Experience)
deriving DecidableEq

/-- `MemoryManager.save_experience`: append one record and rewrite the full
log to disk. -/
def save_experience (st : MemoryState) (timestamp task : String) (success : Bool)
    (solution : String) : MemoryState :=
  let ms := st.memories ++ [{ timestamp := timestamp, task := task,
                              success := success, solution := solution }]
  { memories := ms, disk := some ms }

/-- `MemoryManager.find_similar_experiences` as a method: the body only reads
`self.memories` (it builds and sorts a fresh `scored_memories` list and never
assigns to `self.memories` nor writes the file), so the resulting manager
state is the input state. -/
def mm_find_similar (st : MemoryState) (task : String) (top_k : Nat) :
    MemoryState × List Experience :=
  (st, find_similar_experiences st.memories task top_k)

/-! ### `TeamManager._write_to_workspace` (main_hybrid.py lines 501-504) -/

/-- The cleaning applied before persisting any artifact. -/
def clean_content (content : String) : String :=
  pyStrip (pyReplace (pyReplace content "```python" "") "```" "")

/-- The per-run workspace directory, as a map from filename to file text
(most recent write first). -/
def Workspace : Type := List (String × String)

/-- `TeamManager._write_to_workspace`: write the cleaned content. -/
def write_to_workspace (ws : Workspace) (filename content : String) : Workspace :=
  (filename, clean_content content) :: ws

/-- Look up the current content of a workspace file. -/
def workspaceRead (ws : Workspace) (filename : String) : Option String :=
  (List.find? (fun e : String × String => e.1 == filename) ws).map Prod.snd

/-! ### The workflow state machine (main_hybrid.py lines 289-499) -/

/-- The values taken by `context.current_state`. -/
inductive WState : Type
  | PLANNING | GENERATE_TESTS | CODING | REFACTORING | AUDIT | DONE | FAILED
deriving DecidableEq

/-- `SharedContext`: the scratchpad threaded through the phases. -/
structure SharedContext where
  task : String
  target_file : String
  plan : String
  test_code : String
  solution_code : String
  critique : String
  error_log : String
  current_state : WState
deriving DecidableEq

/-- A fresh context as built by the `SharedContext` constructor. -/
def initContext (task target : String) : SharedContext :=
  { task := task, target_file := target, plan := "", test_code := "",
    solution_code := "", critique := "", error_log := "",
    current_state := .PLANNING }

/-- `MAX_RETRIES`. -/
def MAX_RETRIES : Nat := 3

/-- The approval test of the planning loop:
`"APPROVED" in validation.upper()`. -/
def approvedCheck (validation : String) : Bool :=
  strContains (pyUpper validation) "APPROVED"

/-- The `for i in range(...)` loop of `TeamManager._planning_phase`. The
oracles give the text of the i-th Architect completion and of the i-th
Validator completion; the returned number counts executed iterations, each of
which makes exactly one Architect call and one Validator call. -/
def planningLoop (architect validator : Nat → String) :
    Nat → Nat → SharedContext → SharedContext × Nat
  | 0, _, ctx => ({ ctx with current_state := .FAILED }, 0)
  | fuel + 1, i, ctx =>
    let plan := architect i
    let validation := validator i
    if approvedCheck validation then
      ({ ctx with plan := plan, current_state := .GENERATE_TESTS }, 1)
    else
      let rest := planningLoop architect validator fuel (i + 1) { ctx with critique := validation }
      (rest.1, rest.2 + 1)

/-- `TeamManager._planning_phase`. -/
def planning_phase (architect validator : Nat → String) (ctx : SharedContext) :
    SharedContext × Nat :=
  planningLoop architect validator MAX_RETRIES 0 ctx

/-- Outcome of one `subprocess.run(["python", "repro_test.py"], ..., timeout=10)`
invocation: either the process exited (exit code plus the combined
stderr+stdout text), or the 10-second timeout expired. -/
inductive RunResult : Type
  | exited (code : Int) (output : String) : RunResult
  | timedOut : RunResult
deriving DecidableEq

/-- Did the verification run succeed (the Python test `res.returncode == 0`)? -/
def isSuccess : RunResult → Bool
  | .exited code _ => code == 0
  | .timedOut => false

/-- The Python exceptions relevant to the phase loops. `subprocess.run` raises
`subprocess.TimeoutExpired` when its timeout elapses; no phase and no handler
in `main` catches it. -/
inductive PyExn : Type
  | timeoutExpired : PyExn
deriving DecidableEq

/-- The loop of `TeamManager._coding_phase`. `coder i` is the code produced on
attempt `i` (attempt 0 by the Coder persona, later attempts by the Debugger
persona); `verify i` is the outcome of the i-th test run. The returned number
counts completed verification runs. A timeout propagates as an exception. -/
def codingLoop (coder : Nat → String) (verify : Nat → RunResult) :
    Nat → Nat → SharedContext → Except PyExn (SharedContext × Nat)
  | 0, _, ctx => .ok ({ ctx with current_state := .FAILED }, 0)
  | fuel + 1, i, ctx =>
    let solution := coder i
    let ctx1 := { ctx with solution_code := solution }
    match verify i with
    | .timedOut => .error .timeoutExpired
    | .exited code output =>
      if code = 0 then
        .ok ({ ctx1 with current_state := .REFACTORING }, 1)
      else
        match codingLoop coder verify fuel (i + 1) { ctx1 with error_log := output } with
        | .ok (c, n) => .ok (c, n + 1)
        | .error e => .error e

/-- `TeamManager._coding_phase`. -/
def coding_phase (coder : Nat → String) (verify : Nat → RunResult) (ctx : SharedContext) :
    Except PyExn (SharedContext × Nat) :=
  codingLoop coder verify MAX_RETRIES 0 ctx

/-- Outcome of the `subprocess.run(["flake8", ...])` invocation inside
`TeamManager._run_linter`: the linter ran and printed `stdout`, or the
executable was not found (`FileNotFoundError`). -/
inductive LintOutcome : Type
  | ran (stdout : String) : LintOutcome
  | toolMissing : LintOutcome
deriving DecidableEq

/-- `TeamManager._run_linter`: the stripped stdout of flake8, or — when the
executable is missing — a fixed, non-empty advisory message. -/
def run_linter : LintOutcome → String
  | .ran out => pyStrip out
  | .toolMissing => "flake8 not found. Please install it with \x27pip install flake8\x27."

/-- The loop of `TeamManager._refactoring_phase`. `lint i` is the outcome of
the i-th linter invocation, `refactor i` the i-th Refactor-persona rewrite,
`verify i` the i-th re-run of the test harness. The returned number counts
Refactor-persona rewrites. -/
def refactoringLoop (lint : Nat → LintOutcome) (refactor : Nat → String)
    (verify : Nat → RunResult) :
    Nat → Nat → SharedContext → Except PyExn (SharedContext × Nat)
  | 0, _, ctx => .ok ({ ctx with current_state := .AUDIT }, 0)
  | fuel + 1, i, ctx =>
    let lint_results := run_linter (lint i)
    if lint_results = "" then
      .ok ({ ctx with current_state := .AUDIT }, 0)
    else
      let new_code := refactor i
      let ctx1 := { ctx with solution_code := new_code }
      match verify i with
      | .timedOut => .error .timeoutExpired
      | .exited code _ =>
        if code ≠ 0 then
          .ok ({ ctx1 with current_state := .FAILED }, 1)
        else
          match refactoringLoop lint refactor verify fuel (i + 1) ctx1 with
          | .ok (c, n) => .ok (c, n + 1)
          | .error e => .error e

/-- `TeamManager._refactoring_phase`. -/
def refactoring_phase (lint : Nat → LintOutcome) (refactor : Nat → String)
    (verify : Nat → RunResult) (ctx : SharedContext) :
    Except PyExn (SharedContext × Nat) :=
  refactoringLoop lint refactor verify MAX_RETRIES 0 ctx

/-! ### `main` (main_hybrid.py lines 518-566) -/

/-- How the run of `TeamManager.execute_workflow` (plus the success-path file
copy and commit) ends, as observed by the exception handlers of `main`. -/
inductive RunOutcome : Type
  | completed (success : Bool) : RunOutcome
  | agentError : RunOutcome
  | interrupted : RunOutcome
deriving DecidableEq

/-- The version-control state touched by `main` through `GitGatekeeper`. -/
structure GitState where
  head : String
  branches : List String
deriving DecidableEq

/-- `GitGatekeeper.create_branch`: check out a fresh sandbox branch. -/
def create_branch (g : GitState) (branch : String) : GitState :=
  { head := branch, branches := branch :: g.branches }

/-- The git effects of `main` after input validation has succeeded: create the
sandbox branch, run the workflow, then follow the matching handler. On
`success = true` the commit stays on the sandbox branch; on `success = false`
the original ref is checked out and the branch deleted; the `AgentError`
handler only logs; the `KeyboardInterrupt` handler checks out the original
ref without deleting the branch. -/
def main_git_flow (origRef branch : String) (outcome : RunOutcome) (g : GitState) : GitState :=
  let g1 := create_branch g branch
  match outcome with
  | .completed true => g1
  | .completed false => { head := origRef, branches := g1.branches.erase branch }
  | .agentError => g1
  | .interrupted => { head := origRef, branches := g1.branches }

/-! ## Helper lemmas -/

/-- A run result that reports success is an exit with code 0. -/
theorem isSuccess_true_iff {r : RunResult} (h : isSuccess r = true) :
    ∃ out, r = .exited 0 out := by
  cases r with
  | timedOut => simp [isSuccess] at h
  | exited c out =>
    refine ⟨out, ?_⟩
    simp [isSuccess] at h
    rw [h]

/-! ## Claim C6 -/

/-- C6: `validate_instruction` rejects any text longer than `MAX_LEN = 2000`
with the length-violation error, even when the text contains a deny-listed
phrase (the first conjunct holds for all texts); for a text within the limit
that case-insensitively contains a deny-listed phrase it fails with a
security-violation error naming a matched phrase; a text within the limit
containing no deny-listed phrase is returned unchanged. Length is checked
first. -/
theorem C6_validate_instruction (text : String) :
    (MAX_INSTRUCTION_LENGTH < text.length →
      validate_instruction text = .error .lengthViolation)
    ∧ (text.length ≤ MAX_INSTRUCTION_LENGTH →
        ∀ p ∈ PROMPT_INJECTION_PATTERNS, strContains (pyLower text) p = true →
          ∃ q ∈ PROMPT_INJECTION_PATTERNS, strContains (pyLower text) q = true ∧
            validate_instruction text = .error (.securityViolation q))
    ∧ (text.length ≤ MAX_INSTRUCTION_LENGTH →
        (∀ p ∈ PROMPT_INJECTION_PATTERNS, strContains (pyLower text) p = false) →
        validate_instruction text = .ok text) := by
  refine ⟨fun hlen => ?_, fun hlen p hp hpc => ?_, fun hlen hnone => ?_⟩
  · simp only [validate_instruction, if_pos hlen]
  · have hsome : (PROMPT_INJECTION_PATTERNS.find?
        (fun q => strContains (pyLower text) q)).isSome := by
      rw [List.find?_isSome]
      exact ⟨p, hp, hpc⟩
    obtain ⟨q, hq⟩ := Option.isSome_iff_exists.mp hsome
    refine ⟨q, List.mem_of_find?_eq_some hq, List.find?_some hq, ?_⟩
    simp only [validate_instruction, if_neg (Nat.not_lt.mpr hlen), hq]
  · have hnone2 : PROMPT_INJECTION_PATTERNS.find?
        (fun q => strContains (pyLower text) q) = none := by
      rw [List.find?_eq_none]
      intro q hq
      simp [hnone q hq]
    simp only [validate_instruction, if_neg (Nat.not_lt.mpr hlen), hnone2]

/-- A 2001-character instruction that also contains the deny-listed phrase
`act as`. -/
def longInstruction : String := String.mk ("act as ".data ++ List.replicate 1994 'a')

/-- Witness for C6: the over-long instruction fails with the length violation
although it contains a deny-listed phrase, and a benign short instruction
passes through unchanged. -/
theorem C6_witness :
    validate_instruction longInstruction = .error .lengthViolation
    ∧ strContains (pyLower longInstruction) "act as" = true
    ∧ validate_instruction "add a subtraction helper" = .ok "add a subtraction helper" := by
  have hlen : MAX_INSTRUCTION_LENGTH < longInstruction.length := by
    have h1 : longInstruction.length = ("act as ".data).length + 1994 := by
      show ("act as ".data ++ List.replicate 1994 'a').length = _
      rw [List.length_append, List.length_replicate]
    rw [h1]
    decide
  refine ⟨(C6_validate_instruction longInstruction).1 hlen, ?_, ?_⟩
  · rfl
  · exact (C6_validate_instruction "add a subtraction helper").2.2 (by decide) (by decide)

/-! ## Claim C7 -/

/-- C7 counterexample: once the startup probe has switched the roster to the
fallback model, a single failed call for a coder-class role raises the
generation error immediately — the completion the claim says the retry would
return is never produced. -/
theorem C7_counterexample :
    generate (switch_to_fallback defaultRoster) "Python Dev"
        (.exn "connection refused") (.ok "recovered") ≠ .ok "recovered"
    ∧ generate (switch_to_fallback defaultRoster) "Python Dev"
        (.exn "connection refused") (.ok "recovered")
      = .error { agent := "Python Dev", phase := "generation",
                 details := [("error", "connection refused")] } := by
  constructor
  · decide
  · decide

/-- C7 amended: when the routed primary model differs from the fallback model,
`generate` retries exactly once against the fallback on a primary failure,
returns the fallback completion when that retry succeeds, and raises the
generation error (carrying role, phase and both error details) only after the
fallback has also failed; when the roster has been switched so that the routed
model is the fallback itself, a single failure raises the generation error
immediately, with no second attempt. -/
theorem C7_amended (r : Roster) (role e t : String) (fb : CallResult) :
    (generate r role (.ok t) fb = .ok t)
    ∧ ((routeModel r role).1 ≠ MODEL_FALLBACK →
        (generate r role (.exn e) (.ok t) = .ok t)
        ∧ ∀ e2, generate r role (.exn e) (.exn e2) =
            .error { agent := role, phase := "generation",
                     details := [("original_error", e), ("fallback_error", e2)] })
    ∧ ((routeModel r role).1 = MODEL_FALLBACK →
        generate r role (.exn e) fb =
          .error { agent := role, phase := "generation", details := [("error", e)] }) := by
  refine ⟨rfl, fun hne => ⟨?_, fun e2 => ?_⟩, fun heq => ?_⟩
  · simp only [generate, if_pos hne]
  · simp only [generate, if_pos hne]
  · simp only [generate, heq]
    simp

/-- Witness for C7 amended: with the default roster a coder-class failure is
retried against the fallback and its completion returned; with the switched
roster the same failure aborts at once. -/
theorem C7_witness :
    generate defaultRoster "Python Dev" (.exn "connection refused") (.ok "code") = .ok "code"
    ∧ generate (switch_to_fallback defaultRoster) "Python Dev" (.exn "x") (.ok "y") =
        .error { agent := "Python Dev", phase := "generation", details := [("error", "x")] } :=
  ⟨((C7_amended defaultRoster "Python Dev" "connection refused" "code"
      (.ok "code")).2.1 (by decide)).1,
   (C7_amended (switch_to_fallback defaultRoster) "Python Dev" "x" "y"
      (.ok "y")).2.2 (by decide)⟩

/-! ## Claim C10 -/

/-- C10: `find_similar_experiences` never mutates the experience store: the
in-memory list and the on-disk log are identical before and after the call,
and a second call on the resulting state returns the same records. -/
theorem C10_find_similar_pure (st : MemoryState) (task : String) (k : Nat) :
    (mm_find_similar st task k).1 = st
    ∧ (mm_find_similar st task k).1.memories = st.memories
    ∧ (mm_find_similar st task k).1.disk = st.disk
    ∧ (mm_find_similar (mm_find_similar st task k).1 task k).2 = (mm_find_similar st task k).2 :=
  ⟨rfl, rfl, rfl, rfl⟩

/-! ## Claim C4 -/

/-- C4 counterexample: when the workflow raises the generation error, `main`
only logs it — the repository is left on the sandbox branch and the branch is
not deleted, so no rollback to the original ref happens. -/
theorem C4_counterexample :
    (main_git_flow "main" "agent/add-feature-1200" .agentError
        { head := "main", branches := ["main"] }).head = "agent/add-feature-1200"
    ∧ (main_git_flow "main" "agent/add-feature-1200" .agentError
        { head := "main", branches := ["main"] }).head ≠ "main"
    ∧ "agent/add-feature-1200" ∈ (main_git_flow "main" "agent/add-feature-1200" .agentError
        { head := "main", branches := ["main"] }).branches := by
  refine ⟨rfl, by decide, by decide⟩

/-- C4 amended: when a generation error propagates out of the controller the
task aborts, but no sandbox rollback is performed: the repository stays on the
sandbox branch and the branch survives. Rollback (restore the original ref and
delete the sandbox branch) happens exactly on the workflow-FAILED path; on
external interruption only the original ref is restored and the sandbox branch
is kept. -/
theorem C4_amended (origRef branch : String) (g : GitState) (h : branch ≠ origRef) :
    (main_git_flow origRef branch .agentError g).head = branch
    ∧ (main_git_flow origRef branch .agentError g).head ≠ origRef
    ∧ branch ∈ (main_git_flow origRef branch .agentError g).branches
    ∧ main_git_flow origRef branch (.completed false) g
        = { head := origRef, branches := g.branches }
    ∧ main_git_flow origRef branch .interrupted g
        = { head := origRef, branches := branch :: g.branches } := by
  refine ⟨rfl, by simpa using h, ?_, ?_, rfl⟩
  · exact List.mem_cons_self branch g.branches
  · simp only [main_git_flow, create_branch]
    rw [List.erase_cons_head]

/-- Witness for C4 amended at a concrete repository state. -/
theorem C4_witness :
    (main_git_flow "main" "agent/fix-bug-0930" .agentError
        { head := "main", branches := ["main"] }).head = "agent/fix-bug-0930"
    ∧ main_git_flow "main" "agent/fix-bug-0930" (.completed false)
        { head := "main", branches := ["main"] }
      = { head := "main", branches := ["main"] } :=
  ⟨(C4_amended "main" "agent/fix-bug-0930" { head := "main", branches := ["main"] }
      (by decide)).1,
   (C4_amended "main" "agent/fix-bug-0930" { head := "main", branches := ["main"] }
      (by decide)).2.2.2.1⟩

/-! ## Claim C9 -/

/-- The backtick character, recovered from a string literal. -/
def backtickChar : Char := "`".data.headD ' '

/-- Replacing a pattern that starts with a character absent from the text
leaves the text unchanged, whatever the fuel. -/
theorem replaceAllAux_not_mem (b : Char) (bt rep : List Char) :
    ∀ (fuel : Nat) (l : List Char), b ∉ l → replaceAllAux (b :: bt) rep fuel l = l := by
  intro fuel
  induction fuel with
  | zero => intro l _; rfl
  | succ n ih =>
    intro l hb
    cases l with
    | nil => rfl
    | cons c cs =>
      have hbc : b ≠ c := fun he => hb (he ▸ List.mem_cons_self b cs)
      have hbcs : b ∉ cs := fun hm => hb (List.mem_cons_of_mem c hm)
      rw [replaceAllAux]
      rw [if_neg]
      · rw [ih cs hbcs]
      · rintro ⟨-, hpre⟩
        rw [List.isPrefixOf_iff_prefix] at hpre
        exact hbc (List.cons_prefix_cons.mp hpre).1

/-- C9: the persisted file content is the text with every occurrence of the
substrings of three backticks followed by `python`, and of three bare
backticks, removed at any position — even inside string literals of the
generated code — and leading/trailing whitespace stripped. A text containing
no backtick at all is only stripped, while an artifact that legitimately
contains triple backticks inside a Python string literal is altered before
persistence. -/
theorem C9_write_to_workspace (ws : Workspace) (filename content : String) :
    workspaceRead (write_to_workspace ws filename content) filename
      = some (pyStrip (pyReplace (pyReplace content "```python" "") "```" ""))
    ∧ (backtickChar ∉ content.data → clean_content content = pyStrip content)
    ∧ clean_content "x = \"a```b\"\n" = "x = \"ab\""
    ∧ clean_content "x = \"a```b\"\n" ≠ pyStrip "x = \"a```b\"\n" := by
  refine ⟨?_, fun hb => ?_, by decide, by decide⟩
  · simp only [workspaceRead, write_to_workspace]
    rw [List.find?_cons_of_pos _ (by simp)]
    rfl
  · have h1 : ("```python".data) = backtickChar :: "``python".data := by decide
    have h2 : ("```".data) = backtickChar :: "``".data := by decide
    have e1 : pyReplace content "```python" "" = content := by
      show String.mk (replaceAllAux ("```python".data) ("".data)
        content.data.length content.data) = content
      rw [h1, replaceAllAux_not_mem _ _ _ _ _ hb]
    rw [clean_content, e1]
    have e2 : pyReplace content "```" "" = content := by
      show String.mk (replaceAllAux ("```".data) ("".data)
        content.data.length content.data) = content
      rw [h2, replaceAllAux_not_mem _ _ _ _ _ hb]
    rw [e2]

/-- Witness for C9: a backtick-free artifact is persisted with only the
whitespace stripping applied. -/
theorem C9_witness :
    workspaceRead (write_to_workspace [] "solution.py" "  x = 1\n") "solution.py"
      = some (pyStrip (pyReplace (pyReplace "  x = 1\n" "```python" "") "```" ""))
    ∧ clean_content "  x = 1\n" = pyStrip "  x = 1\n" :=
  ⟨(C9_write_to_workspace [] "solution.py" "  x = 1\n").1,
   (C9_write_to_workspace [] "solution.py" "  x = 1\n").2.1 (by decide)⟩

/-! ## Claim C5 -/

/-- Inserting into the stable descending sort passes only strictly
higher-scored elements, so for every fixed score the filtered subsequence is
exactly that of pushing the element on the front. -/
theorem filter_orderedInsert {α : Type} (s : Nat) (x : Nat × α) (l : List (Nat × α)) :
    (l.orderedInsert scoreGE x).filter (fun p => p.1 == s)
      = ((x :: l).filter (fun p => p.1 == s)) := by
  induction l with
  | nil => rfl
  | cons b t ih =>
    rw [List.orderedInsert]
    by_cases hxb : scoreGE x b
    · rw [if_pos hxb]
    · rw [if_neg hxb]
      have hlt : x.1 < b.1 := Nat.lt_of_not_le hxb
      by_cases hxs : x.1 = s
      · have hbs : (b.1 == s) = false := beq_eq_false_iff_ne.mpr (by omega)
        have hxt : (x.1 == s) = true := beq_iff_eq.mpr hxs
        simp only [List.filter_cons, ih, hbs, hxt]
        simp
      · have hxf : (x.1 == s) = false := beq_eq_false_iff_ne.mpr hxs
        simp only [List.filter_cons, ih, hxf]
        simp

/-- Stability of the descending sort: for every fixed score, sorting does not
change the subsequence of entries carrying that score — equal-scored entries
keep their original insertion order. -/
theorem filter_insertionSort {α : Type} (s : Nat) (l : List (Nat × α)) :
    (l.insertionSort scoreGE).filter (fun p => p.1 == s)
      = l.filter (fun p => p.1 == s) := by
  induction l with
  | nil => rfl
  | cons x xs ih =>
    rw [List.insertionSort, filter_orderedInsert]
    simp only [List.filter_cons, ih]

/-- Every scored entry is positive and carries the overlap score of its own
record. -/
theorem mem_scoredMemories {memories : List Experience} {task : String}
    {p : Nat × Experience} (hp : p ∈ scoredMemories memories task) :
    0 < p.1 ∧ p.1 = overlapScore task p.2.task := by
  simp only [scoredMemories, List.mem_filter, List.mem_map, decide_eq_true_eq] at hp
  obtain ⟨⟨m, _, rfl⟩, hpos⟩ := hp
  exact ⟨hpos, rfl⟩

/-- A positive overlap score is exactly the existence of a shared case-folded
whitespace-separated token. -/
theorem overlapScore_pos_iff (a b : String) :
    0 < overlapScore a b ↔ ∃ w, w ∈ keywordSet a ∧ w ∈ keywordSet b := by
  rw [overlapScore, List.length_pos]
  constructor
  · intro hne
    obtain ⟨w, hw⟩ := List.exists_mem_of_ne_nil _ hne
    rw [List.mem_filter, decide_eq_true_eq] at hw
    exact ⟨w, hw.1, hw.2⟩
  · rintro ⟨w, hwa, hwb⟩
    intro hnil
    have : w ∈ ([] : List String) := by
      rw [← hnil, List.mem_filter, decide_eq_true_eq]
      exact ⟨hwa, hwb⟩
    simp at this

/-- C5: for every query task, every k and every store contents,
`find_similar_experiences` returns at most k records; every returned record
has a positive token-overlap score with the query, and a positive score is
exactly the sharing of a case-folded whitespace-separated token (so
zero-overlap records are discarded); the result is ordered by descending
overlap score; and the sort is stable — for every fixed score the entries
carrying it appear in their original insertion order. -/
theorem C5_find_similar_experiences (memories : List Experience) (task : String) (k : Nat) :
    (find_similar_experiences memories task k).length ≤ k
    ∧ (find_similar_experiences memories task k).all
        (fun m => decide (0 < overlapScore task m.task)) = true
    ∧ (∀ a b : String, 0 < overlapScore a b ↔ ∃ w, w ∈ keywordSet a ∧ w ∈ keywordSet b)
    ∧ List.Pairwise (fun a b => overlapScore task b.task ≤ overlapScore task a.task)
        (find_similar_experiences memories task k)
    ∧ ∀ s : Nat,
        ((scoredMemories memories task).insertionSort scoreGE).filter (fun p => p.1 == s)
          = (scoredMemories memories task).filter (fun p => p.1 == s) := by
  have hmem : ∀ p ∈ (((scoredMemories memories task).insertionSort scoreGE).take k),
      p ∈ scoredMemories memories task := by
    intro p hp
    exact (List.mem_insertionSort scoreGE).mp (List.mem_of_mem_take hp)
  refine ⟨?_, ?_, overlapScore_pos_iff, ?_, fun s => filter_insertionSort s _⟩
  · rw [find_similar_experiences, List.length_map, List.length_take]
    exact min_le_left _ _
  · rw [List.all_eq_true]
    intro m hm
    rw [find_similar_experiences, List.mem_map] at hm
    obtain ⟨p, hp, rfl⟩ := hm
    obtain ⟨hpos, hsc⟩ := mem_scoredMemories (hmem p hp)
    exact decide_eq_true (hsc ▸ hpos)
  · have hs : List.Pairwise scoreGE
        ((scoredMemories memories task).insertionSort scoreGE) :=
      List.sorted_insertionSort scoreGE _
    have hstake : List.Pairwise scoreGE
        (((scoredMemories memories task).insertionSort scoreGE).take k) :=
      List.Pairwise.sublist (List.take_sublist _ _) hs
    have h2 : List.Pairwise
        (fun a b : Nat × Experience =>
          overlapScore task b.2.task ≤ overlapScore task a.2.task)
        (((scoredMemories memories task).insertionSort scoreGE).take k) := by
      refine hstake.imp_of_mem ?_
      intro a b ha hb hr
      rw [← (mem_scoredMemories (hmem a ha)).2, ← (mem_scoredMemories (hmem b hb)).2]
      exact hr
    exact List.Pairwise.map Prod.snd (fun a b h => h) h2

/-! ## Claim C1 -/

/-- In the planning loop, j rejections followed by an approval (with j within
the remaining fuel) give exactly j+1 iterations — hence j+1 Architect calls
and j+1 Validator calls — and store the (j+1)-th plan while moving to test
generation. -/
theorem planningLoop_approved (architect validator : Nat → String) :
    ∀ (j fuel i : Nat) (ctx : SharedContext), j < fuel →
      (∀ d, d < j → approvedCheck (validator (i + d)) = false) →
      approvedCheck (validator (i + j)) = true →
      (planningLoop architect validator fuel i ctx).2 = j + 1
      ∧ (planningLoop architect validator fuel i ctx).1.current_state = .GENERATE_TESTS
      ∧ (planningLoop architect validator fuel i ctx).1.plan = architect (i + j) := by
  intro j
  induction j with
  | zero =>
    intro fuel i ctx hfuel _ happ
    cases fuel with
    | zero => omega
    | succ f =>
      rw [Nat.add_zero] at happ
      refine ⟨?_, ?_, ?_⟩ <;>
        simp only [planningLoop, happ, if_true, Nat.add_zero, Nat.zero_add]
  | succ j ih =>
    intro fuel i ctx hfuel hrej happ
    cases fuel with
    | zero => omega
    | succ f =>
      have hrej0 : approvedCheck (validator i) = false := by
        have := hrej 0 (Nat.succ_pos j)
        rwa [Nat.add_zero] at this
      have hrej2 : ∀ d, d < j → approvedCheck (validator (i + 1 + d)) = false := by
        intro d hd
        have := hrej (d + 1) (by omega)
        rwa [show i + (d + 1) = i + 1 + d by omega] at this
      have happ2 : approvedCheck (validator (i + 1 + j)) = true := by
        rwa [show i + (j + 1) = i + 1 + j by omega] at happ
      have hcore := ih f (i + 1) { ctx with critique := validator i } (by omega) hrej2 happ2
      simp only [planningLoop, hrej0]
      refine ⟨?_, ?_, ?_⟩
      · simp only [Bool.false_eq_true, if_false]
        rw [hcore.1]
      · simp only [Bool.false_eq_true, if_false]
        exact hcore.2.1
      · simp only [Bool.false_eq_true, if_false]
        rw [hcore.2.2]
        rw [show i + 1 + j = i + (j + 1) by omega]

/-- C1 counterexample: with `MAX_RETRIES = 3`, a Validator that rejects the
first three plans and would approve the fourth never gets a fourth chance —
the planning phase makes exactly 3 Architect calls and 3 Validator calls and
transitions to FAILED, not the 4 calls and GENERATE_TESTS transition the
claim asserts. -/
theorem C1_counterexample :
    (planning_phase (fun i => "plan version " ++ toString i)
        (fun i => if i < 3 then "Please add more detail." else "APPROVED")
        (initContext "add a feature" "target.py")).2 = 3
    ∧ (planning_phase (fun i => "plan version " ++ toString i)
        (fun i => if i < 3 then "Please add more detail." else "APPROVED")
        (initContext "add a feature" "target.py")).1.current_state = .FAILED
    ∧ ¬((planning_phase (fun i => "plan version " ++ toString i)
        (fun i => if i < 3 then "Please add more detail." else "APPROVED")
        (initContext "add a feature" "target.py")).2 = 4
      ∧ (planning_phase (fun i => "plan version " ++ toString i)
        (fun i => if i < 3 then "Please add more detail." else "APPROVED")
        (initContext "add a feature" "target.py")).1.current_state = .GENERATE_TESTS) := by
  refine ⟨by decide, by decide, ?_⟩
  rintro ⟨h4, -⟩
  have h3 : (planning_phase (fun i => "plan version " ++ toString i)
      (fun i => if i < 3 then "Please add more detail." else "APPROVED")
      (initContext "add a feature" "target.py")).2 = 3 := by decide
  omega

/-- C1 amended: the planning loop allows at most `R = MAX_RETRIES` attempts in
total. For j < R validator rejections followed by one approval, exactly j+1
Architect calls and j+1 Validator calls occur, and `context.plan` equals the
text of the (j+1)-th Architect output when the controller transitions to
GENERATE_TESTS; if all R attempts are rejected the phase transitions to
FAILED after exactly R calls of each. -/
theorem C1_amended (architect validator : Nat → String) (ctx : SharedContext) (j : Nat)
    (hj : j < MAX_RETRIES)
    (hrej : ∀ d, d < j → approvedCheck (validator d) = false)
    (happ : approvedCheck (validator j) = true) :
    (planning_phase architect validator ctx).2 = j + 1
    ∧ (planning_phase architect validator ctx).1.current_state = .GENERATE_TESTS
    ∧ (planning_phase architect validator ctx).1.plan = architect j := by
  have h := planningLoop_approved architect validator j MAX_RETRIES 0 ctx hj
    (fun d hd => by simpa using hrej d hd) (by simpa using happ)
  simpa using h

/-- Witness for C1 amended: one rejection, then an approval — two calls to
each persona and the second plan stored. -/
theorem C1_witness :
    (planning_phase (fun i => "plan v" ++ toString i)
        (fun i => if i = 0 then "Needs more detail on edge cases." else "PLAN APPROVED")
        (initContext "t" "f")).2 = 2
    ∧ (planning_phase (fun i => "plan v" ++ toString i)
        (fun i => if i = 0 then "Needs more detail on edge cases." else "PLAN APPROVED")
        (initContext "t" "f")).1.current_state = .GENERATE_TESTS
    ∧ (planning_phase (fun i => "plan v" ++ toString i)
        (fun i => if i = 0 then "Needs more detail on edge cases." else "PLAN APPROVED")
        (initContext "t" "f")).1.plan = "plan v" ++ toString 1 := by
  exact C1_amended (fun i => "plan v" ++ toString i)
    (fun i => if i = 0 then "Needs more detail on edge cases." else "PLAN APPROVED")
    (initContext "t" "f") 1 (by decide)
    (fun d hd => by
      have hd0 : d = 0 := by omega
      subst hd0
      decide)
    (by decide)

/-! ## Claim C2 -/

/-- In the coding loop, prior failed attempts followed by a run that hits the
wall-clock timeout make the whole loop raise the timeout exception. -/
theorem codingLoop_timeout (coder : Nat → String) (verify : Nat → RunResult) :
    ∀ (j fuel i : Nat) (ctx : SharedContext), j < fuel →
      (∀ d, d < j → ∃ c out, verify (i + d) = .exited c out ∧ c ≠ 0) →
      verify (i + j) = .timedOut →
      codingLoop coder verify fuel i ctx = .error .timeoutExpired := by
  intro j
  induction j with
  | zero =>
    intro fuel i ctx hfuel _ ht
    cases fuel with
    | zero => omega
    | succ f =>
      rw [Nat.add_zero] at ht
      simp only [codingLoop, ht]
  | succ j ih =>
    intro fuel i ctx hfuel hfail ht
    cases fuel with
    | zero => omega
    | succ f =>
      obtain ⟨c, out, hv, hc⟩ := hfail 0 (Nat.succ_pos j)
      rw [Nat.add_zero] at hv
      have hfail2 : ∀ d, d < j → ∃ c2 out2, verify (i + 1 + d) = .exited c2 out2 ∧ c2 ≠ 0 := by
        intro d hd
        obtain ⟨c2, out2, hv2, hc2⟩ := hfail (d + 1) (by omega)
        exact ⟨c2, out2, by rwa [show i + (d + 1) = i + 1 + d by omega] at hv2, hc2⟩
      have ht2 : verify (i + 1 + j) = .timedOut := by
        rwa [show i + (j + 1) = i + 1 + j by omega] at ht
      have hcore := ih f (i + 1) { ctx with solution_code := coder i, error_log := out }
        (by omega) hfail2 ht2
      simp only [codingLoop, hv, if_neg hc, hcore]

/-- C2 counterexample: a first verification run that hits the timeout makes
the coding phase raise the timeout exception instead of consuming one retry —
even though two more attempts of budget remain and the next run would have
passed. -/
theorem C2_counterexample :
    coding_phase (fun _ => "x = 1")
      (fun i => if i = 0 then .timedOut else .exited 0 "")
      (initContext "t" "f") = .error .timeoutExpired := by
  decide

/-- C2 amended: a verification run that exceeds its wall-clock timeout raises
the uncaught timeout exception: in both the CODING and the REFACTORING loop
it is a distinct control path that escapes the phase (and `main` has no
handler for it), rather than an ordinary failed-verification result consuming
one retry attempt. -/
theorem C2_amended (j : Nat) (coder : Nat → String) (verify : Nat → RunResult)
    (ctx : SharedContext) (hj : j < MAX_RETRIES)
    (hfail : ∀ d, d < j → ∃ c out, verify d = .exited c out ∧ c ≠ 0)
    (ht : verify j = .timedOut) :
    coding_phase coder verify ctx = .error .timeoutExpired
    ∧ ∀ (lint : Nat → LintOutcome) (refactor : Nat → String) (ctx2 : SharedContext),
        run_linter (lint 0) ≠ "" → verify 0 = .timedOut →
        refactoring_phase lint refactor verify ctx2 = .error .timeoutExpired := by
  constructor
  · exact codingLoop_timeout coder verify j MAX_RETRIES 0 ctx hj
      (fun d hd => by simpa using hfail d hd) (by simpa using ht)
  · intro lint refactor ctx2 hl h0
    show refactoringLoop lint refactor verify 3 0 ctx2 = .error .timeoutExpired
    simp only [refactoringLoop, if_neg hl, h0]

/-- Witness for C2 amended: an immediate timeout aborts both loops. -/
theorem C2_witness :
    coding_phase (fun _ => "x = 1") (fun _ => .timedOut) (initContext "t" "f")
      = .error .timeoutExpired
    ∧ refactoring_phase (fun _ => .ran "E501 line too long") (fun _ => "y = 2")
        (fun _ => .timedOut) (initContext "t" "f") = .error .timeoutExpired := by
  have h := C2_amended 0 (fun _ => "x = 1") (fun _ => .timedOut) (initContext "t" "f")
    (by decide) (fun d hd => absurd hd (Nat.not_lt_zero d)) rfl
  have h2 := C2_amended 0 (fun _ => "y = 2") (fun _ => .timedOut) (initContext "t" "f")
    (by decide) (fun d hd => absurd hd (Nat.not_lt_zero d)) rfl
  exact ⟨h.1, h2.2 (fun _ => .ran "E501 line too long") (fun _ => "y = 2")
    (initContext "t" "f") (by decide) rfl⟩

/-! ## Claim C3 -/

/-- C3 counterexample: with the lint tool missing on every attempt and all
test re-runs passing, the refactoring phase performs 3 Refactor-persona
rewrites (triggered by the non-empty sentinel message) before reaching AUDIT —
it does not treat the missing tool as "no issues found", which would mean
zero rewrites. -/
theorem C3_counterexample :
    refactoring_phase (fun _ => .toolMissing) (fun i => "rewrite " ++ toString i)
      (fun _ => .exited 0 "") (initContext "t" "f")
      = .ok ({ (initContext "t" "f") with
                 solution_code := "rewrite 2",
                 current_state := .AUDIT }, 3)
    ∧ refactoring_phase (fun _ => .toolMissing) (fun i => "rewrite " ++ toString i)
      (fun _ => .exited 0 "") (initContext "t" "f")
      ≠ .ok ({ (initContext "t" "f") with current_state := .AUDIT }, 0) := by
  constructor
  · decide
  · decide

/-- C3 amended: when the lint tool is unavailable, `_run_linter` returns a
fixed non-empty advisory message instead of raising, and the refactoring
phase treats that sentinel like ordinary lint findings: each of the R
attempts triggers a Refactor-persona rewrite. The workflow does not fail on
this alone — while the re-run tests keep passing, the controller proceeds to
AUDIT after exhausting the R attempts (with R rewrites performed), not
immediately with zero rewrites. -/
theorem C3_amended (refactor : Nat → String) (verify : Nat → RunResult)
    (ctx : SharedContext) (hpass : ∀ i, isSuccess (verify i) = true) :
    run_linter .toolMissing ≠ ""
    ∧ refactoring_phase (fun _ => .toolMissing) refactor verify ctx
        = .ok ({ ctx with solution_code := refactor 2, current_state := .AUDIT }, 3) := by
  obtain ⟨out0, hv0⟩ := isSuccess_true_iff (hpass 0)
  obtain ⟨out1, hv1⟩ := isSuccess_true_iff (hpass 1)
  obtain ⟨out2, hv2⟩ := isSuccess_true_iff (hpass 2)
  have hms : run_linter LintOutcome.toolMissing ≠ "" := by decide
  refine ⟨hms, ?_⟩
  show refactoringLoop (fun _ => .toolMissing) refactor verify 3 0 ctx
    = .ok ({ ctx with solution_code := refactor 2, current_state := .AUDIT }, 3)
  simp only [refactoringLoop, if_neg hms, hv0, hv1, hv2,
    if_neg (by omega : ¬(0 : Int) ≠ 0)]

/-- Witness for C3 amended with concrete oracles. -/
theorem C3_witness :
    run_linter .toolMissing ≠ ""
    ∧ refactoring_phase (fun _ => .toolMissing) (fun _ => "tidy")
        (fun _ => .exited 0 "") (initContext "t" "f")
        = .ok ({ (initContext "t" "f") with
                   solution_code := "tidy",
                   current_state := .AUDIT }, 3) := by
  have h := C3_amended (fun _ => "tidy") (fun _ => .exited 0 "")
    (initContext "t" "f") (fun i => rfl)
  exact ⟨h.1, h.2⟩

/-! ## Claim C8 -/

/-- In the refactoring loop, j successful lint-triggered rewrites followed by
one whose re-run breaks the tests stop the loop at once: FAILED, with exactly
j+1 rewrites performed. -/
theorem refactoringLoop_breaks (lint : Nat → LintOutcome) (refactor : Nat → String)
    (verify : Nat → RunResult) :
    ∀ (j fuel i : Nat) (ctx : SharedContext), j < fuel →
      (∀ d, d ≤ j → run_linter (lint (i + d)) ≠ "") →
      (∀ d, d < j → isSuccess (verify (i + d)) = true) →
      (∃ c out, verify (i + j) = .exited c out ∧ c ≠ 0) →
      refactoringLoop lint refactor verify fuel i ctx
        = .ok ({ ctx with
                   solution_code := refactor (i + j),
                   current_state := .FAILED }, j + 1) := by
  intro j
  induction j with
  | zero =>
    intro fuel i ctx hfuel hlint _ hbreak
    cases fuel with
    | zero => omega
    | succ f =>
      obtain ⟨c, out, hv, hc⟩ := hbreak
      rw [Nat.add_zero] at hv
      have hl := hlint 0 (Nat.le_refl 0)
      rw [Nat.add_zero] at hl
      simp only [refactoringLoop, if_neg hl, hv, if_pos hc, Nat.add_zero, Nat.zero_add]
  | succ j ih =>
    intro fuel i ctx hfuel hlint hpass hbreak
    cases fuel with
    | zero => omega
    | succ f =>
      have hl := hlint 0 (Nat.zero_le _)
      rw [Nat.add_zero] at hl
      obtain ⟨out0, hv0⟩ := isSuccess_true_iff (by
        have := hpass 0 (Nat.succ_pos j)
        rwa [Nat.add_zero] at this)
      have hlint2 : ∀ d, d ≤ j → run_linter (lint (i + 1 + d)) ≠ "" := by
        intro d hd
        have := hlint (d + 1) (by omega)
        rwa [show i + (d + 1) = i + 1 + d by omega] at this
      have hpass2 : ∀ d, d < j → isSuccess (verify (i + 1 + d)) = true := by
        intro d hd
        have := hpass (d + 1) (by omega)
        rwa [show i + (d + 1) = i + 1 + d by omega] at this
      have hbreak2 : ∃ c out, verify (i + 1 + j) = .exited c out ∧ c ≠ 0 := by
        obtain ⟨c, out, hv, hc⟩ := hbreak
        exact ⟨c, out, by rwa [show i + (j + 1) = i + 1 + j by omega] at hv, hc⟩
      have hcore := ih f (i + 1) { ctx with solution_code := refactor i } (by omega)
        hlint2 hpass2 hbreak2
      rw [show i + (j + 1) = i + 1 + j by omega]
      simp only [refactoringLoop, if_neg hl, hv0, if_neg (by omega : ¬(0 : Int) ≠ 0), hcore]

/-- C8: if in the refactoring phase the j-th rewrite (j < R, any remaining
budget) causes the test re-run to fail with a nonzero exit code, the workflow
transitions directly to FAILED with exactly j+1 rewrites performed — no
further refactor attempt happens, so the re-run failure is a hard stop rather
than a consumed retry. -/
theorem C8_hard_stop (lint : Nat → LintOutcome) (refactor : Nat → String)
    (verify : Nat → RunResult) (ctx : SharedContext) (j : Nat)
    (hj : j < MAX_RETRIES)
    (hlint : ∀ d, d ≤ j → run_linter (lint d) ≠ "")
    (hpass : ∀ d, d < j → isSuccess (verify d) = true)
    (hbreak : ∃ c out, verify j = .exited c out ∧ c ≠ 0) :
    refactoring_phase lint refactor verify ctx
      = .ok ({ ctx with
                 solution_code := refactor j,
                 current_state := .FAILED }, j + 1) := by
  have h := refactoringLoop_breaks lint refactor verify j MAX_RETRIES 0 ctx hj
    (fun d hd => by simpa using hlint d hd)
    (fun d hd => by simpa using hpass d hd)
    (by simpa using hbreak)
  simpa using h

/-- Witness for C8: the very first rewrite breaks the tests; the phase fails
at once after a single rewrite, with two budget attempts unused. -/
theorem C8_witness :
    refactoring_phase (fun _ => .ran "E501 line too long") (fun _ => "refactored")
      (fun _ => .exited 1 "AssertionError") (initContext "t" "f")
      = .ok ({ (initContext "t" "f") with
                 solution_code := "refactored",
                 current_state := .FAILED }, 1) := by
  have h := C8_hard_stop (fun _ => .ran "E501 line too long") (fun _ => "refactored")
    (fun _ => .exited 1 "AssertionError") (initContext "t" "f") 0 (by decide)
    (fun d hd => by
      have hd0 : d = 0 := Nat.le_zero.mp hd
      subst hd0
      decide)
    (fun d hd => absurd hd (Nat.not_lt_zero d))
    ⟨1, "AssertionError", rfl, by decide⟩
  exact h
